import Mathlib

/-!
Verification development for the per-client rate-limiting middleware of the
anvil toolkit (middleware.go).  The Go code is shallowly embedded: time is a
rational number of seconds, the token bucket of golang.org/x/time/rate is a
pure structure over rationals, pointer sharing of limiters is made explicit
through a heap of limiter cells addressed by natural numbers, and the HTTP
request/response exchange is a pure function from a request and a clock value
to a response together with the number of invocations of the downstream
handler.
-/

namespace Anvil

/-- Model of golang.org/x/time/rate.Limiter (an external collaborator of the
repository): `limit` tokens per second, burst capacity `burst`, current
`tokens`, and `last`, the time of the last state update.  `rate.NewLimiter`
starts with a full bucket. -/
structure Limiter where
  limit : ℚ
  burst : ℕ
  tokens : ℚ
  last : ℚ
deriving Repr, DecidableEq

/-- Model of `rate.NewLimiter(r, b)` executed at time `t0`: the bucket starts
full. -/
def Limiter.new (r : ℚ) (b : ℕ) (t0 : ℚ) : Limiter :=
  { limit := r, burst := b, tokens := (b : ℚ), last := t0 }

/-- Model of the `advance` step of rate.Limiter: refill proportionally to the
elapsed time (never negative), capped at the burst capacity. -/
def Limiter.advance (l : Limiter) (now : ℚ) : ℚ :=
  min (l.burst : ℚ) (l.tokens + max 0 (now - l.last) * l.limit)

/-- Model of `(*rate.Limiter).Allow()` called at time `now`: refill, then admit
(consuming one token) exactly when one token is available and the burst is at
least 1; on denial the limiter is left unchanged, as in `reserveN` when
`ok` is false. -/
def Limiter.allow (l : Limiter) (now : ℚ) : Bool × Limiter :=
  let toks := l.advance now
  if 1 ≤ l.burst ∧ (1 : ℚ) ≤ toks then
    (true, { l with tokens := toks - 1, last := now })
  else
    (false, l)

/-- The four package-level preset limiters of middleware.go, all created at
package initialisation (modelled as time 0).
`RateLimitPublicAPI = rate.NewLimiter(5000, 100)`. -/
def RateLimitPublicAPI : Limiter := Limiter.new 5000 100 0

/-- Model of `RateLimitInternalAPI = rate.NewLimiter(10000, 200)`. -/
def RateLimitInternalAPI : Limiter := Limiter.new 10000 200 0

/-- Model of `RateLimitUserWebAPI = rate.NewLimiter(300, 30)`. -/
def RateLimitUserWebAPI : Limiter := Limiter.new 300 30 0

/-- Model of `RateLimitStrictAPI = rate.NewLimiter(100, 10)`. -/
def RateLimitStrictAPI : Limiter := Limiter.new 100 10 0

/-- The heap of limiter cells.  Go pointers to `rate.Limiter` are modelled as
indices into this list; sharing a pointer is sharing an index. -/
abbrev Heap := List Limiter

/-- The package-level heap holding the four preset limiter singletons, at
addresses 0, 1, 2, 3. -/
def presetHeap : Heap :=
  [RateLimitPublicAPI, RateLimitInternalAPI, RateLimitUserWebAPI, RateLimitStrictAPI]

/-- Address of `RateLimitPublicAPI` in `presetHeap`. -/
def publicAddr : ℕ := 0

/-- Address of `RateLimitInternalAPI` in `presetHeap`. -/
def internalAddr : ℕ := 1

/-- Address of `RateLimitUserWebAPI` in `presetHeap`. -/
def webAddr : ℕ := 2

/-- Address of `RateLimitStrictAPI` in `presetHeap`. -/
def strictAddr : ℕ := 3

/-- Calling `Allow()` through a pointer: look the cell up in the heap, run the
limiter, store the updated limiter back at the same address. -/
def heapAllow (h : Heap) (a : ℕ) (now : ℚ) : Bool × Heap :=
  match h.get? a with
  | none => (false, h)
  | some l =>
      let p := l.allow now
      (p.1, h.set a p.2)

/-- The `client` struct of rateLimiterMiddleware: a pointer to a limiter
(modelled as a heap address) and the `lastSeen` timestamp. -/
structure ClientEntry where
  limiterAddr : ℕ
  lastSeen : ℚ
deriving Repr, DecidableEq

/-- The `clients` map of one middleware instance, as an association list from
client identity (IP string) to entry. -/
abbrev Clients := List (String × ClientEntry)

/-- Map lookup `clients[ip]`. -/
def lookupClient (ip : String) : Clients → Option ClientEntry
  | [] => none
  | kv :: rest => if kv.1 = ip then some kv.2 else lookupClient ip rest

/-- The guarded insert of the request path:
`if _, found := clients[ip]; !found { clients[ip] = &client{limiter: rateLimit} }`.
The new entry stores the address of the middleware's limiter (no new limiter is
allocated) and the zero timestamp, exactly as the Go zero value of time.Time. -/
def ensureEntry (rlAddr : ℕ) (ip : String) (cs : Clients) : Clients :=
  match lookupClient ip cs with
  | some _ => cs
  | none => (ip, { limiterAddr := rlAddr, lastSeen := 0 }) :: cs

/-- The unconditional write `clients[ip].lastSeen = time.Now()`. -/
def setLastSeen (ip : String) (now : ℚ) (cs : Clients) : Clients :=
  cs.map (fun kv => if kv.1 = ip then (kv.1, { kv.2 with lastSeen := now }) else kv)

/-- An inbound HTTP request.  `identity` is the host part returned by
`net.SplitHostPort(r.RemoteAddr)` (an external oracle): `none` models a
RemoteAddr that is not splittable into host and port. -/
structure Request where
  identity : Option String
deriving Repr, DecidableEq

/-- The `Message` struct of middleware.go, the JSON-serialised rejection
body. -/
structure Message where
  status : String
  body : String
  locked : Bool
  timestamp : ℚ
deriving Repr, DecidableEq

/-- What a handler writes to the ResponseWriter as a body: nothing, the
JSON-encoded rejection `Message`, or whatever the downstream handler
produced (abstract). -/
inductive Body (α : Type) where
  | empty : Body α
  | jsonMessage : Message → Body α
  | fromNext : α → Body α
deriving Repr, DecidableEq

/-- The observable HTTP response: status code, whether a Content-Type header
declaring JSON was set (the repository's writeJSON helper sets it; the
rate-limit path of middleware.go never does), and the body. -/
structure HttpResponse (α : Type) where
  status : ℕ
  contentTypeDeclaredJSON : Bool
  body : Body α
deriving Repr, DecidableEq

/-- The code `http.StatusTooManyRequests`. -/
def statusTooManyRequests : ℕ := 429

/-- The code `http.StatusInternalServerError`. -/
def statusInternalServerError : ℕ := 500

/-- The rejection `Message` literal built in rateLimiterMiddleware, with the
rejection time as its timestamp. -/
def rejectionMessage (now : ℚ) : Message :=
  { status := "Request Failed"
    body := "Rate limit reached. Please wait 5 minutes and try again."
    locked := true
    timestamp := now }

/-- The full rejection response of the middleware:
`w.WriteHeader(http.StatusTooManyRequests); json.NewEncoder(w).Encode(&message)`.
No Content-Type header is set on this path. -/
def rejectionResponse (α : Type) (now : ℚ) : HttpResponse α :=
  { status := statusTooManyRequests
    contentTypeDeclaredJSON := false
    body := Body.jsonMessage (rejectionMessage now) }

/-- The identity-extraction-failure response:
`w.WriteHeader(http.StatusInternalServerError)` and return, with no body and
no Content-Type header. -/
def serverErrorResponse (α : Type) : HttpResponse α :=
  { status := statusInternalServerError
    contentTypeDeclaredJSON := false
    body := Body.empty }

/-- Model of the writeJSON helper of the repository's utilities file: it adds
a Content-Type header declaring JSON before writing the status and body.
Included to witness that the toolkit has a JSON-declaring write path and the
rate-limit rejection path is not it. -/
def writeJSON (α : Type) (status : ℕ) (v : Body α) : HttpResponse α :=
  { status := status, contentTypeDeclaredJSON := true, body := v }

/-- The mutable state of one rateLimiterMiddleware instance together with the
heap it can reach: the heap of limiter cells and the instance's `clients`
map. -/
structure MWState where
  heap : Heap
  clients : Clients
deriving Repr, DecidableEq

/-- The limiter pointer read `clients[ip].limiter` performed by the admission
check; the `none` branch is unreachable on the request path because the entry
was just created. -/
def entryAddr (rlAddr : ℕ) (ip : String) (cs : Clients) : ℕ :=
  match lookupClient ip cs with
  | some e => e.limiterAddr
  | none => rlAddr

/-- The request path of rateLimiterMiddleware, executed under the mutex, line
by line from the source: extract the identity (500 and return when
unavailable, registry untouched); create the entry if absent, storing the
shared limiter address; set `lastSeen` to now unconditionally; call `Allow()`
on the entry's limiter; on denial write the 429 rejection without invoking
`next`; on admission invoke `next` once and return its response unchanged.
The second component counts the invocations of `next`. -/
def handle {α : Type} (next : Request → HttpResponse α) (rlAddr : ℕ)
    (s : MWState) (r : Request) (now : ℚ) : HttpResponse α × ℕ × MWState :=
  match r.identity with
  | none => (serverErrorResponse α, 0, s)
  | some ip =>
      let cs2 := setLastSeen ip now (ensureEntry rlAddr ip s.clients)
      let p := heapAllow s.heap (entryAddr rlAddr ip cs2) now
      if p.1 then
        (next r, 1, { heap := p.2, clients := cs2 })
      else
        (rejectionResponse α now, 0, { heap := p.2, clients := cs2 })

/-- Five minutes, the idle threshold of the sweeper, in seconds. -/
def fiveMinutes : ℚ := 300

/-- One sweep pass over the `clients` map:
`if time.Since(client.lastSeen) > 5*time.Minute { delete(clients, ip) }`.
An entry is kept exactly when its idle time is not strictly above the
threshold. -/
def evictIdle (now : ℚ) (cs : Clients) : Clients :=
  cs.filter (fun kv => if now - kv.2.lastSeen > fiveMinutes then false else true)

/-- An observable event of one middleware instance: a request arriving at a
given time, or one pass of the sweeper goroutine at a given time.  The Go
code serialises the registry and limiter mutations of both paths under a
single mutex, so every concurrent execution is equivalent to a sequence of
these events. -/
inductive Event where
  | req : Request → ℚ → Event
  | sweep : ℚ → Event
deriving Repr, DecidableEq

/-- One event step of a middleware instance; request events produce an
observation (the response and the number of `next` invocations). -/
def stepEvent {α : Type} (next : Request → HttpResponse α) (rlAddr : ℕ)
    (s : MWState) : Event → MWState × Option (HttpResponse α × ℕ)
  | Event.req r now =>
      let t := handle next rlAddr s r now
      (t.2.2, some (t.1, t.2.1))
  | Event.sweep now =>
      ({ heap := s.heap, clients := evictIdle now s.clients }, none)

/-- Run a middleware instance over a sequence of events, collecting the
observation of each event. -/
def run {α : Type} (next : Request → HttpResponse α) (rlAddr : ℕ)
    (s : MWState) : List Event → MWState × List (Option (HttpResponse α × ℕ))
  | [] => (s, [])
  | e :: rest =>
      let p := stepEvent next rlAddr s e
      let q := run next rlAddr p.1 rest
      (q.1, p.2 :: q.2)

/-- Whether an observation is an admitted request (the downstream handler was
invoked). -/
def isAdmitted {α : Type} : Option (HttpResponse α × ℕ) → Bool
  | some o => decide (o.2 = 1)
  | none => false

/-- Number of admitted requests among a list of observations. -/
def admittedCount {α : Type} (os : List (Option (HttpResponse α × ℕ))) : ℕ :=
  os.countP isAdmitted

/-- A fixed abstract downstream handler used in concrete scenarios: it
returns status 200 with its own body. -/
def okNext : Request → HttpResponse Unit :=
  fun _ => { status := 200, contentTypeDeclaredJSON := false, body := Body.fromNext () }

/-- A request from a given IP (RemoteAddr splittable, host part = the IP). -/
def reqFrom (ip : String) : Request := { identity := some ip }

/-- Every entry of a clients map points at the given limiter address. -/
def addrInv (a : ℕ) (cs : Clients) : Prop :=
  ∀ kv ∈ cs, kv.2.limiterAddr = a

theorem lookupClient_eq_none_iff {ip : String} {cs : Clients} :
    lookupClient ip cs = none ↔ ∀ kv ∈ cs, kv.1 ≠ ip := by
  induction cs with
  | nil => simp [lookupClient]
  | cons kv0 rest ih =>
      by_cases hk : kv0.1 = ip
      · simp [lookupClient, hk]
      · simp [lookupClient, hk, ih]

theorem lookupClient_setLastSeen (ip : String) (now : ℚ) (cs : Clients) :
    lookupClient ip (setLastSeen ip now cs)
      = (lookupClient ip cs).map (fun e => { e with lastSeen := now }) := by
  induction cs with
  | nil => rfl
  | cons kv0 rest ih =>
      unfold setLastSeen at ih ⊢
      by_cases hk : kv0.1 = ip
      · simp [lookupClient, hk]
      · simp only [List.map_cons, if_neg hk]
        simp [lookupClient, hk]
        exact ih

theorem ensureEntry_of_lookup_some {a : ℕ} {ip : String} {cs : Clients}
    {e : ClientEntry} (h : lookupClient ip cs = some e) :
    ensureEntry a ip cs = cs := by
  unfold ensureEntry
  rw [h]

theorem ensureEntry_of_lookup_none {a : ℕ} {ip : String} {cs : Clients}
    (h : lookupClient ip cs = none) :
    ensureEntry a ip cs = (ip, { limiterAddr := a, lastSeen := 0 }) :: cs := by
  unfold ensureEntry
  rw [h]

theorem lookupClient_ensureEntry (a : ℕ) (ip : String) (cs : Clients) :
    lookupClient ip (ensureEntry a ip cs)
      = some ((lookupClient ip cs).getD { limiterAddr := a, lastSeen := 0 }) := by
  unfold ensureEntry
  cases h : lookupClient ip cs with
  | none => simp [lookupClient, h]
  | some e => simp [h]

theorem lookupClient_filter {ip : String} {cs : Clients} {e : ClientEntry}
    {p : String × ClientEntry → Bool}
    (h : lookupClient ip cs = some e) (hp : p (ip, e) = true) :
    lookupClient ip (cs.filter p) = some e := by
  induction cs with
  | nil => cases h
  | cons kv0 rest ih =>
      by_cases hk : kv0.1 = ip
      · unfold lookupClient at h
        rw [if_pos hk] at h
        have hkv : kv0 = (ip, e) := by
          obtain ⟨k, v⟩ := kv0
          simp at hk
          simp at h
          simp [hk, h]
        rw [hkv]
        simp [List.filter_cons, hp, lookupClient]
      · unfold lookupClient at h
        rw [if_neg hk] at h
        cases hpk : p kv0 <;> simp [List.filter_cons, hpk, lookupClient, hk, ih h]

theorem handle_of_identity_none {α : Type} (next : Request → HttpResponse α)
    (rlAddr : ℕ) (s : MWState) (r : Request) (now : ℚ) (h : r.identity = none) :
    handle next rlAddr s r now = (serverErrorResponse α, 0, s) := by
  simp [handle, h]

theorem handle_clients_of_identity_some {α : Type} (next : Request → HttpResponse α)
    (rlAddr : ℕ) (s : MWState) (r : Request) (now : ℚ) (ip : String)
    (h : r.identity = some ip) :
    (handle next rlAddr s r now).2.2.clients
      = setLastSeen ip now (ensureEntry rlAddr ip s.clients) := by
  by_cases hp : (heapAllow s.heap
      (entryAddr rlAddr ip (setLastSeen ip now (ensureEntry rlAddr ip s.clients))) now).1
  · simp [handle, h, hp]
  · simp [handle, h, hp]

theorem handle_heap_of_identity_some {α : Type} (next : Request → HttpResponse α)
    (rlAddr : ℕ) (s : MWState) (r : Request) (now : ℚ) (ip : String)
    (h : r.identity = some ip) :
    (handle next rlAddr s r now).2.2.heap
      = (heapAllow s.heap
          (entryAddr rlAddr ip (setLastSeen ip now (ensureEntry rlAddr ip s.clients))) now).2 := by
  by_cases hp : (heapAllow s.heap
      (entryAddr rlAddr ip (setLastSeen ip now (ensureEntry rlAddr ip s.clients))) now).1
  · simp [handle, h, hp]
  · simp [handle, h, hp]

theorem heapAllow_length (h : Heap) (a : ℕ) (now : ℚ) :
    (heapAllow h a now).2.length = h.length := by
  unfold heapAllow
  cases hg : h.get? a with
  | none => rfl
  | some l => simp

/-- C7: a request whose RemoteAddr is not splittable into host and port is
failed with status 500 — a server-side error distinct from the 429 rate-limit
rejection — the downstream handler is not invoked, and the middleware state
(registry and limiters) is left unchanged. -/
theorem missing_identity_server_error {α : Type} (next : Request → HttpResponse α)
    (rlAddr : ℕ) (s : MWState) (r : Request) (now : ℚ)
    (h : r.identity = none) :
    handle next rlAddr s r now = (serverErrorResponse α, 0, s) ∧
    (serverErrorResponse α).status = statusInternalServerError ∧
    statusInternalServerError ≠ statusTooManyRequests := by
  refine ⟨?_, rfl, by decide⟩
  simp [handle, h]

theorem missing_identity_server_error_witness :
    ({ identity := none } : Request).identity = none ∧
    handle okNext publicAddr { heap := presetHeap, clients := [] }
        { identity := none } 0
      = (serverErrorResponse Unit, 0, { heap := presetHeap, clients := [] }) :=
  ⟨rfl, (missing_identity_server_error okNext publicAddr
      { heap := presetHeap, clients := [] } { identity := none } 0 rfl).1⟩

/-- C8: one sweep pass removes from the registry exactly those entries whose
`lastSeen` is more than five minutes older than the current time, and no
other entry; a sweep event leaves the limiter heap untouched. -/
theorem sweep_evicts_exactly_stale_entries {α : Type} (next : Request → HttpResponse α)
    (rlAddr : ℕ) (s : MWState) (now : ℚ) :
    stepEvent next rlAddr s (Event.sweep now)
      = ({ heap := s.heap, clients := evictIdle now s.clients }, none) ∧
    ∀ kv : String × ClientEntry,
      kv ∈ evictIdle now s.clients ↔ kv ∈ s.clients ∧ ¬ now - kv.2.lastSeen > fiveMinutes := by
  refine ⟨rfl, fun kv => ?_⟩
  by_cases hc : now - kv.2.lastSeen > fiveMinutes
  · simp [evictIdle, List.mem_filter, hc]
  · simp [evictIdle, List.mem_filter, hc]

/-- C9: on every admission check with an extractable identity, the client
entry's `lastSeen` is set to the current time, for admitted and rejected
requests alike (the conclusion does not depend on the admission outcome);
consequently a sweep within the idle threshold does not evict the client. -/
theorem lastSeen_touched_unconditionally {α : Type} (next : Request → HttpResponse α)
    (rlAddr : ℕ) (s : MWState) (r : Request) (now : ℚ) (ip : String)
    (h : r.identity = some ip) :
    ∃ e : ClientEntry,
      lookupClient ip (handle next rlAddr s r now).2.2.clients = some e ∧
      e.lastSeen = now ∧
      ∀ now2 : ℚ, now2 - now ≤ fiveMinutes →
        lookupClient ip (evictIdle now2 (handle next rlAddr s r now).2.2.clients) = some e := by
  rw [handle_clients_of_identity_some next rlAddr s r now ip h]
  set e0 := (lookupClient ip s.clients).getD { limiterAddr := rlAddr, lastSeen := 0 } with he0
  refine ⟨{ e0 with lastSeen := now }, ?_, rfl, ?_⟩
  · rw [lookupClient_setLastSeen, lookupClient_ensureEntry]
    rfl
  · intro now2 hnow2
    apply lookupClient_filter
    · rw [lookupClient_setLastSeen, lookupClient_ensureEntry]
      rfl
    · have hlt : ¬ now2 - now > fiveMinutes := not_lt.mpr hnow2
      simp [hlt]

theorem lastSeen_touched_unconditionally_witness :
    (reqFrom "10.0.0.1").identity = some "10.0.0.1" ∧
    ∃ e : ClientEntry,
      lookupClient "10.0.0.1"
          (handle okNext webAddr { heap := presetHeap, clients := [] }
            (reqFrom "10.0.0.1") 7).2.2.clients = some e ∧
      e.lastSeen = 7 ∧
      ∀ now2 : ℚ, now2 - 7 ≤ fiveMinutes →
        lookupClient "10.0.0.1"
            (evictIdle now2
              (handle okNext webAddr { heap := presetHeap, clients := [] }
                (reqFrom "10.0.0.1") 7).2.2.clients) = some e :=
  ⟨rfl, lastSeen_touched_unconditionally okNext webAddr
      { heap := presetHeap, clients := [] } (reqFrom "10.0.0.1") 7 "10.0.0.1" rfl⟩

/-- C10: for a request with an extractable identity, the outcome is governed
by the grant bit of the `Allow()` call on the client's bucket: if the bucket
grants the token, `next` is invoked exactly once and its response is returned
unchanged; if the bucket grants no token, `next` is not invoked at all and
the 429 rejection response is produced instead. -/
theorem admit_forwards_reject_short_circuits {α : Type} (next : Request → HttpResponse α)
    (rlAddr : ℕ) (s : MWState) (r : Request) (now : ℚ) (ip : String)
    (h : r.identity = some ip) :
    ((heapAllow s.heap
        (entryAddr rlAddr ip (setLastSeen ip now (ensureEntry rlAddr ip s.clients))) now).1
          = true →
      (handle next rlAddr s r now).1 = next r ∧ (handle next rlAddr s r now).2.1 = 1) ∧
    ((heapAllow s.heap
        (entryAddr rlAddr ip (setLastSeen ip now (ensureEntry rlAddr ip s.clients))) now).1
          = false →
      (handle next rlAddr s r now).1 = rejectionResponse α now ∧
      (handle next rlAddr s r now).2.1 = 0) := by
  constructor
  · intro hp
    constructor <;> simp [handle, h, hp]
  · intro hp
    constructor <;> simp [handle, h, hp]

theorem admit_forwards_reject_short_circuits_witness :
    (reqFrom "10.0.0.2").identity = some "10.0.0.2" ∧
    (heapAllow presetHeap
        (entryAddr internalAddr "10.0.0.2"
          (setLastSeen "10.0.0.2" 0 (ensureEntry internalAddr "10.0.0.2" []))) 0).1 = true ∧
    ((handle okNext internalAddr { heap := presetHeap, clients := [] }
        (reqFrom "10.0.0.2") 0).1 = okNext (reqFrom "10.0.0.2") ∧
     (handle okNext internalAddr { heap := presetHeap, clients := [] }
        (reqFrom "10.0.0.2") 0).2.1 = 1) := by
  have hbit : (heapAllow presetHeap
      (entryAddr internalAddr "10.0.0.2"
        (setLastSeen "10.0.0.2" 0 (ensureEntry internalAddr "10.0.0.2" []))) 0).1 = true := by
    norm_num [heapAllow, entryAddr, ensureEntry, lookupClient, setLastSeen,
      Limiter.allow, Limiter.advance, presetHeap, internalAddr,
      RateLimitInternalAPI, Limiter.new]
  exact ⟨rfl, hbit,
    (admit_forwards_reject_short_circuits okNext internalAddr
      { heap := presetHeap, clients := [] } (reqFrom "10.0.0.2") 0 "10.0.0.2" rfl).1 hbit⟩

/-- A one-cell heap holding a strict-parameter limiter whose bucket is empty
at time 0, used to exercise the rejection path directly. -/
def drainedHeap : Heap := [{ limit := 100, burst := 10, tokens := 0, last := 0 }]

/-- C5 counterexample: a rejected request is answered with status 429 and the
JSON-encoded Message body, but the claim's final conjunct is false — the
middleware never declares a JSON Content-Type on this path (it calls
WriteHeader and then Encode without touching the header map, unlike the
toolkit's writeJSON helper). -/
theorem rejection_content_type_not_declared_json :
    (handle okNext 0 { heap := drainedHeap, clients := [] } (reqFrom "4.4.4.4") 0).1.status
        = statusTooManyRequests ∧
    (handle okNext 0 { heap := drainedHeap, clients := [] } (reqFrom "4.4.4.4") 0).1.body
        = Body.jsonMessage (rejectionMessage 0) ∧
    ¬ (handle okNext 0 { heap := drainedHeap, clients := [] }
        (reqFrom "4.4.4.4") 0).1.contentTypeDeclaredJSON = true := by
  norm_num [handle, heapAllow, entryAddr, ensureEntry, lookupClient, setLastSeen,
    Limiter.allow, Limiter.advance, drainedHeap, reqFrom, rejectionResponse,
    statusTooManyRequests]

/-- C5 amended: for every request whose identity is extractable and whose
bucket grants no token, the middleware responds with status 429 and a JSON
body carrying `status` = "Request Failed", a `body` message describing the
limit and suggested wait, `locked` = true and the rejection time as
`timestamp` — but it does not declare a JSON Content-Type on the response
(the toolkit's writeJSON helper is the path that would). -/
theorem rejection_response_shape {α : Type} (next : Request → HttpResponse α)
    (rlAddr : ℕ) (s : MWState) (r : Request) (now : ℚ) (ip : String)
    (h : r.identity = some ip)
    (hdeny : (handle next rlAddr s r now).2.1 = 0) :
    (handle next rlAddr s r now).1 = rejectionResponse α now ∧
    (rejectionResponse α now).status = statusTooManyRequests ∧
    (rejectionResponse α now).body = Body.jsonMessage
      { status := "Request Failed"
        body := "Rate limit reached. Please wait 5 minutes and try again."
        locked := true
        timestamp := now } ∧
    (rejectionResponse α now).contentTypeDeclaredJSON = false ∧
    (writeJSON α statusTooManyRequests (rejectionResponse α now).body).contentTypeDeclaredJSON
        = true := by
  refine ⟨?_, rfl, rfl, rfl, rfl⟩
  by_cases hp : (heapAllow s.heap
      (entryAddr rlAddr ip (setLastSeen ip now (ensureEntry rlAddr ip s.clients))) now).1
  · exfalso
    simp [handle, h, hp] at hdeny
  · simp [handle, h, hp]

theorem rejection_response_shape_witness :
    (reqFrom "3.3.3.3").identity = some "3.3.3.3" ∧
    (handle okNext 0 { heap := drainedHeap, clients := [] } (reqFrom "3.3.3.3") 0).2.1 = 0 ∧
    (handle okNext 0 { heap := drainedHeap, clients := [] } (reqFrom "3.3.3.3") 0).1
      = rejectionResponse Unit 0 := by
  have hdeny : (handle okNext 0 { heap := drainedHeap, clients := [] }
      (reqFrom "3.3.3.3") 0).2.1 = 0 := by
    norm_num [handle, heapAllow, entryAddr, ensureEntry, lookupClient, setLastSeen,
      Limiter.allow, Limiter.advance, drainedHeap, reqFrom]
  exact ⟨rfl, hdeny, (rejection_response_shape okNext 0
    { heap := drainedHeap, clients := [] } (reqFrom "3.3.3.3") 0 "3.3.3.3" rfl hdeny).1⟩

theorem addrInv_ensureEntry {a : ℕ} {ip : String} {cs : Clients}
    (h : addrInv a cs) : addrInv a (ensureEntry a ip cs) := by
  unfold ensureEntry
  cases hl : lookupClient ip cs with
  | some e => exact h
  | none =>
      intro kv hkv
      rcases List.mem_cons.mp hkv with hkv | hkv
      · rw [hkv]
      · exact h kv hkv

theorem addrInv_setLastSeen {a : ℕ} {ip : String} {now : ℚ} {cs : Clients}
    (h : addrInv a cs) : addrInv a (setLastSeen ip now cs) := by
  intro kv hkv
  unfold setLastSeen at hkv
  rcases List.mem_map.mp hkv with ⟨kv0, hkv0, heq⟩
  by_cases hk : kv0.1 = ip
  · rw [if_pos hk] at heq
    rw [← heq]
    exact h kv0 hkv0
  · rw [if_neg hk] at heq
    rw [← heq]
    exact h kv0 hkv0

theorem addrInv_evictIdle {a : ℕ} {now : ℚ} {cs : Clients}
    (h : addrInv a cs) : addrInv a (evictIdle now cs) := by
  intro kv hkv
  exact h kv (List.mem_filter.mp hkv).1

theorem addrInv_handle {α : Type} {next : Request → HttpResponse α} {rlAddr : ℕ}
    {s : MWState} {r : Request} {now : ℚ}
    (h : addrInv rlAddr s.clients) :
    addrInv rlAddr (handle next rlAddr s r now).2.2.clients := by
  cases hid : r.identity with
  | none => rw [handle_of_identity_none next rlAddr s r now hid]; exact h
  | some ip =>
      rw [handle_clients_of_identity_some next rlAddr s r now ip hid]
      exact addrInv_setLastSeen (addrInv_ensureEntry h)

theorem handle_heap_length {α : Type} (next : Request → HttpResponse α)
    (rlAddr : ℕ) (s : MWState) (r : Request) (now : ℚ) :
    (handle next rlAddr s r now).2.2.heap.length = s.heap.length := by
  cases hid : r.identity with
  | none => rw [handle_of_identity_none next rlAddr s r now hid]
  | some ip =>
      rw [handle_heap_of_identity_some next rlAddr s r now ip hid]
      exact heapAllow_length _ _ _

theorem addrInv_run {α : Type} (next : Request → HttpResponse α) (rlAddr : ℕ) :
    ∀ (es : List Event) (s0 : MWState), addrInv rlAddr s0.clients →
      addrInv rlAddr (run next rlAddr s0 es).1.clients ∧
      (run next rlAddr s0 es).1.heap.length = s0.heap.length := by
  intro es
  induction es with
  | nil => exact fun s0 h => ⟨h, rfl⟩
  | cons e rest ih =>
      intro s0 h
      cases e with
      | req r now =>
          have hstep : (stepEvent next rlAddr s0 (Event.req r now)).1
              = (handle next rlAddr s0 r now).2.2 := rfl
          have h2 := ih (handle next rlAddr s0 r now).2.2 (addrInv_handle h)
          refine ⟨?_, ?_⟩
          · simpa [run, hstep] using h2.1
          · calc (run next rlAddr s0 (Event.req r now :: rest)).1.heap.length
                = (run next rlAddr (handle next rlAddr s0 r now).2.2 rest).1.heap.length := by
                  simp [run, hstep]
              _ = (handle next rlAddr s0 r now).2.2.heap.length := h2.2
              _ = s0.heap.length := handle_heap_length next rlAddr s0 r now
      | sweep now =>
          have h2 := ih { heap := s0.heap, clients := evictIdle now s0.clients }
            (addrInv_evictIdle h)
          refine ⟨?_, ?_⟩
          · simpa [run, stepEvent] using h2.1
          · simpa [run, stepEvent] using h2.2

/-- C4: in every reachable registry state of a middleware instance, every
client entry ever stored holds the address of the one limiter passed to
rateLimiterMiddleware at construction, and the request path never allocates a
new limiter (the heap of limiter cells never grows).  Concretely, because the
preset limiters are package-level singletons, a second handler built by the
same preset constructor — with its own fresh clients map — observes the token
state drained through the first handler and immediately rejects. -/
theorem registry_entries_alias_constructor_limiter {α : Type}
    (next : Request → HttpResponse α) (rlAddr : ℕ) (s0 : MWState) (es : List Event)
    (h0 : addrInv rlAddr s0.clients) :
    addrInv rlAddr (run next rlAddr s0 es).1.clients ∧
    (run next rlAddr s0 es).1.heap.length = s0.heap.length ∧
    (handle okNext strictAddr
        { heap := (run okNext strictAddr { heap := presetHeap, clients := [] }
            (List.replicate 10 (Event.req (reqFrom "5.5.5.5") 0))).1.heap
          clients := [] }
        (reqFrom "6.6.6.6") 0).2.1 = 0 := by
  refine ⟨(addrInv_run next rlAddr es s0 h0).1, (addrInv_run next rlAddr es s0 h0).2, ?_⟩
  norm_num [run, stepEvent, handle, heapAllow, entryAddr, ensureEntry, lookupClient,
    setLastSeen, Limiter.allow, Limiter.advance, presetHeap, strictAddr,
    RateLimitStrictAPI, Limiter.new, reqFrom, okNext, List.replicate]

theorem registry_entries_alias_constructor_limiter_witness :
    addrInv publicAddr ([] : Clients) ∧
    addrInv publicAddr
      (run okNext publicAddr { heap := presetHeap, clients := [] }
        [Event.req (reqFrom "7.7.7.7") 0]).1.clients :=
  ⟨fun kv hkv => absurd hkv (List.not_mem_nil kv),
   (registry_entries_alias_constructor_limiter okNext publicAddr
      { heap := presetHeap, clients := [] } [Event.req (reqFrom "7.7.7.7") 0]
      (fun kv hkv => absurd hkv (List.not_mem_nil kv))).1⟩

/-- Iterate `Allow()` on one limiter `n` times at a fixed instant, returning
the number of grants and the final limiter state. -/
def allowCount (now : ℚ) : ℕ → Limiter → ℕ × Limiter
  | 0, l => (0, l)
  | n + 1, l =>
      let p := l.allow now
      let q := allowCount now n p.2
      ((if p.1 then 1 else 0) + q.1, q.2)

theorem allow_false_eq {l l2 : Limiter} {now : ℚ}
    (h : l.allow now = (false, l2)) : l2 = l := by
  unfold Limiter.allow at h
  by_cases hc : 1 ≤ l.burst ∧ (1 : ℚ) ≤ l.advance now
  · rw [if_pos hc] at h
    cases h
  · rw [if_neg hc] at h
    injection h with h1 h2
    exact h2.symm

theorem advance_le_burst (l : Limiter) (now : ℚ) :
    l.advance now ≤ (l.burst : ℚ) :=
  min_le_left _ _

theorem allow_true_spec {l l2 : Limiter} {now : ℚ}
    (h : l.allow now = (true, l2)) :
    (1 : ℚ) ≤ l.advance now ∧ l2.advance now = l.advance now - 1 := by
  unfold Limiter.allow at h
  by_cases hc : 1 ≤ l.burst ∧ (1 : ℚ) ≤ l.advance now
  · rw [if_pos hc] at h
    injection h with h1 h2
    refine ⟨hc.2, ?_⟩
    rw [← h2]
    have hle : l.advance now ≤ (l.burst : ℚ) := advance_le_burst l now
    show min ((l.burst : ℚ)) (l.advance now - 1 + max 0 (now - now) * l.limit)
        = l.advance now - 1
    rw [sub_self, max_self, zero_mul, add_zero]
    exact min_eq_right (by linarith)
  · rw [if_neg hc] at h
    injection h with h1 h2
    cases h1

theorem allowCount_fst_le (now : ℚ) :
    ∀ (n : ℕ) (l : Limiter), ((allowCount now n l).1 : ℚ) ≤ max (l.advance now) 0 := by
  intro n
  induction n with
  | zero => intro l; simp [allowCount]
  | succ n ih =>
      intro l
      rcases hp : l.allow now with ⟨ok, l2⟩
      cases ok with
      | false =>
          have hl2 : l2 = l := allow_false_eq hp
          have hcount : (allowCount now (n + 1) l).1 = (allowCount now n l).1 := by
            simp [allowCount, hp, hl2]
          rw [hcount]
          exact ih l
      | true =>
          obtain ⟨h1, h2⟩ := allow_true_spec hp
          have hcount : (allowCount now (n + 1) l).1 = 1 + (allowCount now n l2).1 := by
            simp [allowCount, hp]
          rw [hcount]
          have hc := ih l2
          rw [h2] at hc
          have hmax : max (l.advance now - 1) 0 = l.advance now - 1 :=
            max_eq_left (by linarith)
          rw [hmax] at hc
          have hgoal : max (l.advance now) 0 = l.advance now := max_eq_left (by linarith)
          rw [hgoal]
          push_cast
          linarith

theorem allowCount_fst_le_burst (now : ℚ) (n : ℕ) (l : Limiter) :
    (allowCount now n l).1 ≤ l.burst := by
  have h := allowCount_fst_le now n l
  have hadv : l.advance now ≤ (l.burst : ℚ) := advance_le_burst l now
  have hb : (0 : ℚ) ≤ (l.burst : ℚ) := by positivity
  have hq : ((allowCount now n l).1 : ℚ) ≤ (l.burst : ℚ) :=
    le_trans h (max_le hadv hb)
  exact_mod_cast hq

theorem get?_set_same {γ : Type} :
    ∀ (xs : List γ) (i : ℕ) (a b : γ), xs.get? i = some b → (xs.set i a).get? i = some a := by
  intro xs
  induction xs with
  | nil => intro i a b h; cases h
  | cons x rest ih =>
      intro i a b h
      cases i with
      | zero => rfl
      | succ i => exact ih i a b h

theorem countP_setLastSeen (ip : String) (now : ℚ) (cs : Clients) (p : String → Bool) :
    (setLastSeen ip now cs).countP (fun kv => p kv.1) = cs.countP (fun kv => p kv.1) := by
  unfold setLastSeen
  induction cs with
  | nil => rfl
  | cons kv0 rest ih =>
      by_cases hk : kv0.1 = ip <;>
        simp [List.countP_cons, hk, ih]

theorem countP_eq_zero_of_lookup_none {ip : String} {cs : Clients}
    (h : lookupClient ip cs = none) :
    cs.countP (fun kv => decide (kv.1 = ip)) = 0 := by
  rw [List.countP_eq_zero]
  intro kv hkv
  simp only [decide_eq_true_eq]
  exact lookupClient_eq_none_iff.mp h kv hkv

theorem handle_step_existing {α : Type} (next : Request → HttpResponse α) (rlAddr : ℕ)
    (s : MWState) (ip : String) (now : ℚ) (l : Limiter) (e : ClientEntry)
    (hl : s.heap.get? rlAddr = some l)
    (he : lookupClient ip s.clients = some e)
    (ha : e.limiterAddr = rlAddr) :
    handle next rlAddr s (reqFrom ip) now
      = (if (l.allow now).1 then
          (next (reqFrom ip), 1,
            { heap := s.heap.set rlAddr (l.allow now).2
              clients := setLastSeen ip now s.clients })
         else
          (rejectionResponse α now, 0,
            { heap := s.heap.set rlAddr (l.allow now).2
              clients := setLastSeen ip now s.clients })) := by
  have hens : ensureEntry rlAddr ip s.clients = s.clients := ensureEntry_of_lookup_some he
  have hlk2 : lookupClient ip (setLastSeen ip now s.clients)
      = some { e with lastSeen := now } := by
    rw [lookupClient_setLastSeen, he]
    rfl
  have haddr : entryAddr rlAddr ip (setLastSeen ip now s.clients) = rlAddr := by
    unfold entryAddr
    rw [hlk2]
    exact ha
  have hha : heapAllow s.heap rlAddr now
      = ((l.allow now).1, s.heap.set rlAddr (l.allow now).2) := by
    unfold heapAllow
    rw [hl]
  simp only [handle, reqFrom, hens, haddr, hha]

theorem handle_step_fresh {α : Type} (next : Request → HttpResponse α) (rlAddr : ℕ)
    (s : MWState) (ip : String) (now : ℚ) (l : Limiter)
    (hl : s.heap.get? rlAddr = some l)
    (hfresh : lookupClient ip s.clients = none) :
    handle next rlAddr s (reqFrom ip) now
      = (if (l.allow now).1 then
          (next (reqFrom ip), 1,
            { heap := s.heap.set rlAddr (l.allow now).2
              clients := setLastSeen ip now
                ((ip, { limiterAddr := rlAddr, lastSeen := 0 }) :: s.clients) })
         else
          (rejectionResponse α now, 0,
            { heap := s.heap.set rlAddr (l.allow now).2
              clients := setLastSeen ip now
                ((ip, { limiterAddr := rlAddr, lastSeen := 0 }) :: s.clients) })) := by
  have hens : ensureEntry rlAddr ip s.clients
      = (ip, { limiterAddr := rlAddr, lastSeen := 0 }) :: s.clients :=
    ensureEntry_of_lookup_none hfresh
  have hlk2 : lookupClient ip
      (setLastSeen ip now ((ip, { limiterAddr := rlAddr, lastSeen := 0 }) :: s.clients))
      = some { limiterAddr := rlAddr, lastSeen := now } := by
    rw [lookupClient_setLastSeen]
    simp [lookupClient]
  have haddr : entryAddr rlAddr ip
      (setLastSeen ip now ((ip, { limiterAddr := rlAddr, lastSeen := 0 }) :: s.clients))
      = rlAddr := by
    unfold entryAddr
    rw [hlk2]
  have hha : heapAllow s.heap rlAddr now
      = ((l.allow now).1, s.heap.set rlAddr (l.allow now).2) := by
    unfold heapAllow
    rw [hl]
  simp only [handle, reqFrom, hens, haddr, hha]

theorem run_cons {α : Type} (next : Request → HttpResponse α) (rlAddr : ℕ)
    (s : MWState) (e : Event) (es : List Event) :
    run next rlAddr s (e :: es)
      = ((run next rlAddr (stepEvent next rlAddr s e).1 es).1,
         (stepEvent next rlAddr s e).2
           :: (run next rlAddr (stepEvent next rlAddr s e).1 es).2) := rfl

theorem run_replicate_same_ip {α : Type} (next : Request → HttpResponse α) (rlAddr : ℕ)
    (ip : String) (now : ℚ) :
    ∀ (n : ℕ) (s : MWState) (l : Limiter) (e : ClientEntry),
      s.heap.get? rlAddr = some l →
      lookupClient ip s.clients = some e →
      e.limiterAddr = rlAddr →
      admittedCount (run next rlAddr s (List.replicate n (Event.req (reqFrom ip) now))).2
          = (allowCount now n l).1 ∧
      (run next rlAddr s (List.replicate n (Event.req (reqFrom ip) now))).1.heap.length
          = s.heap.length ∧
      (run next rlAddr s (List.replicate n (Event.req (reqFrom ip) now))).1.clients.countP
          (fun kv => decide (kv.1 = ip))
        = s.clients.countP (fun kv => decide (kv.1 = ip)) := by
  intro n
  induction n with
  | zero =>
      intro s l e hl he ha
      simp [run, admittedCount, allowCount]
  | succ n ih =>
      intro s l e hl he ha
      have hstep := handle_step_existing next rlAddr s ip now l e hl he ha
      have hl1 : (s.heap.set rlAddr (l.allow now).2).get? rlAddr = some (l.allow now).2 :=
        get?_set_same s.heap rlAddr (l.allow now).2 l hl
      have he1 : lookupClient ip (setLastSeen ip now s.clients)
          = some { e with lastSeen := now } := by
        rw [lookupClient_setLastSeen, he]
        rfl
      have ih1 := ih { heap := s.heap.set rlAddr (l.allow now).2
                       clients := setLastSeen ip now s.clients }
        (l.allow now).2 { e with lastSeen := now } hl1 he1 ha
      have hcnt : (setLastSeen ip now s.clients).countP (fun kv => decide (kv.1 = ip))
          = s.clients.countP (fun kv => decide (kv.1 = ip)) :=
        countP_setLastSeen ip now s.clients (fun k => decide (k = ip))
      cases hok : (l.allow now).1 with
      | false =>
          rw [hok, if_neg (by simp)] at hstep
          have hse : stepEvent next rlAddr s (Event.req (reqFrom ip) now)
              = ({ heap := s.heap.set rlAddr (l.allow now).2
                   clients := setLastSeen ip now s.clients },
                 some (rejectionResponse α now, 0)) := by
            simp [stepEvent, hstep]
          rw [List.replicate_succ, run_cons, hse]
          dsimp only
          refine ⟨?_, ?_, ?_⟩
          · have h1 := ih1.1
            simp only [admittedCount] at h1 ⊢
            rw [List.countP_cons]
            simp only [isAdmitted, decide_eq_true_eq]
            rw [h1]
            simp [allowCount, hok]
          · rw [ih1.2.1]
            simp
          · rw [ih1.2.2]
            exact hcnt
      | true =>
          rw [hok, if_pos rfl] at hstep
          have hse : stepEvent next rlAddr s (Event.req (reqFrom ip) now)
              = ({ heap := s.heap.set rlAddr (l.allow now).2
                   clients := setLastSeen ip now s.clients },
                 some (next (reqFrom ip), 1)) := by
            simp [stepEvent, hstep]
          rw [List.replicate_succ, run_cons, hse]
          dsimp only
          refine ⟨?_, ?_, ?_⟩
          · have h1 := ih1.1
            simp only [admittedCount] at h1 ⊢
            rw [List.countP_cons]
            simp only [isAdmitted, decide_eq_true_eq]
            rw [h1]
            have h2 : (allowCount now (n + 1) l).1
                = 1 + (allowCount now n (l.allow now).2).1 := by
              simp [allowCount, hok]
            rw [h2]
            simp [Nat.add_comm]
          · rw [ih1.2.1]
            simp
          · rw [ih1.2.2]
            exact hcnt

/-- C6 counterexample: two first-time requests from one identity create zero
new token buckets — the heap of limiters does not grow, and the single
registry entry created for the identity points at the pre-existing shared
preset limiter — refuting the claim that exactly one bucket is created for
the identity. -/
theorem first_time_requests_allocate_no_bucket :
    (run okNext strictAddr { heap := presetHeap, clients := [] }
        (List.replicate 2 (Event.req (reqFrom "1.2.3.4") 0))).1.heap.length
      = presetHeap.length ∧
    lookupClient "1.2.3.4"
        (run okNext strictAddr { heap := presetHeap, clients := [] }
          (List.replicate 2 (Event.req (reqFrom "1.2.3.4") 0))).1.clients
      = some { limiterAddr := strictAddr, lastSeen := 0 } ∧
    presetHeap.length ≠ presetHeap.length + 1 := by
  refine ⟨?_, ?_, by norm_num⟩ <;>
    norm_num [run, stepEvent, handle, heapAllow, entryAddr, ensureEntry, lookupClient,
      setLastSeen, Limiter.allow, Limiter.advance, presetHeap, strictAddr,
      RateLimitStrictAPI, Limiter.new, reqFrom, okNext, List.replicate]

/-- C6 amended: starting from a state in which the identity is unknown, a
burst of N same-identity requests at one instant — simultaneous first-time
requests, every interleaving of which is this same serialized sequence under
the middleware's single mutex — creates exactly one registry entry for the
identity, allocates no new limiter (the heap keeps its length), and admits at
most `capacity` (the burst of the shared limiter the entry references) of the
N requests. -/
theorem single_entry_and_burst_bound_under_race {α : Type}
    (next : Request → HttpResponse α) (rlAddr : ℕ) (s0 : MWState)
    (ip : String) (now : ℚ) (n : ℕ) (l : Limiter)
    (hn : 1 ≤ n)
    (hfresh : lookupClient ip s0.clients = none)
    (hl : s0.heap.get? rlAddr = some l) :
    (run next rlAddr s0 (List.replicate n (Event.req (reqFrom ip) now))).1.clients.countP
        (fun kv => decide (kv.1 = ip)) = 1 ∧
    (run next rlAddr s0 (List.replicate n (Event.req (reqFrom ip) now))).1.heap.length
        = s0.heap.length ∧
    admittedCount (run next rlAddr s0 (List.replicate n (Event.req (reqFrom ip) now))).2
        ≤ l.burst := by
  obtain ⟨m, rfl⟩ : ∃ m, n = m + 1 := ⟨n - 1, by omega⟩
  have hstep := handle_step_fresh next rlAddr s0 ip now l hl hfresh
  have hl1 : (s0.heap.set rlAddr (l.allow now).2).get? rlAddr = some (l.allow now).2 :=
    get?_set_same s0.heap rlAddr (l.allow now).2 l hl
  have he1 : lookupClient ip (setLastSeen ip now
      ((ip, { limiterAddr := rlAddr, lastSeen := 0 }) :: s0.clients))
      = some { limiterAddr := rlAddr, lastSeen := now } := by
    rw [lookupClient_setLastSeen]
    simp [lookupClient]
  have hrest := run_replicate_same_ip next rlAddr ip now m
    { heap := s0.heap.set rlAddr (l.allow now).2
      clients := setLastSeen ip now
        ((ip, { limiterAddr := rlAddr, lastSeen := 0 }) :: s0.clients) }
    (l.allow now).2 { limiterAddr := rlAddr, lastSeen := now } hl1 he1 rfl
  have hcnt1 : (setLastSeen ip now
      ((ip, { limiterAddr := rlAddr, lastSeen := 0 }) :: s0.clients)).countP
        (fun kv => decide (kv.1 = ip)) = 1 := by
    rw [countP_setLastSeen ip now _ (fun k => decide (k = ip))]
    rw [List.countP_cons]
    simp [countP_eq_zero_of_lookup_none hfresh]
  have hburst := allowCount_fst_le_burst now (m + 1) l
  cases hok : (l.allow now).1 with
  | false =>
      rw [hok, if_neg (by simp)] at hstep
      have hse : stepEvent next rlAddr s0 (Event.req (reqFrom ip) now)
          = ({ heap := s0.heap.set rlAddr (l.allow now).2
               clients := setLastSeen ip now
                 ((ip, { limiterAddr := rlAddr, lastSeen := 0 }) :: s0.clients) },
             some (rejectionResponse α now, 0)) := by
        simp [stepEvent, hstep]
      rw [List.replicate_succ, run_cons, hse]
      dsimp only
      refine ⟨?_, ?_, ?_⟩
      · rw [hrest.2.2]
        exact hcnt1
      · rw [hrest.2.1]
        simp
      · have h1 := hrest.1
        simp only [admittedCount] at h1 ⊢
        rw [List.countP_cons]
        simp only [isAdmitted, decide_eq_true_eq]
        rw [h1]
        have h2 : (allowCount now (m + 1) l).1
            = (allowCount now m (l.allow now).2).1 := by
          simp [allowCount, hok]
        rw [h2] at hburst
        simpa using hburst
  | true =>
      rw [hok, if_pos rfl] at hstep
      have hse : stepEvent next rlAddr s0 (Event.req (reqFrom ip) now)
          = ({ heap := s0.heap.set rlAddr (l.allow now).2
               clients := setLastSeen ip now
                 ((ip, { limiterAddr := rlAddr, lastSeen := 0 }) :: s0.clients) },
             some (next (reqFrom ip), 1)) := by
        simp [stepEvent, hstep]
      rw [List.replicate_succ, run_cons, hse]
      dsimp only
      refine ⟨?_, ?_, ?_⟩
      · rw [hrest.2.2]
        exact hcnt1
      · rw [hrest.2.1]
        simp
      · have h1 := hrest.1
        simp only [admittedCount] at h1 ⊢
        rw [List.countP_cons]
        simp only [isAdmitted, decide_eq_true_eq]
        rw [h1]
        have h2 : (allowCount now (m + 1) l).1
            = 1 + (allowCount now m (l.allow now).2).1 := by
          simp [allowCount, hok]
        rw [h2] at hburst
        simp only [if_true]
        omega

theorem single_entry_and_burst_bound_under_race_witness :
    (1 ≤ 2 ∧ lookupClient "8.8.8.8" ([] : Clients) = none ∧
      presetHeap.get? webAddr = some RateLimitUserWebAPI) ∧
    admittedCount (run okNext webAddr { heap := presetHeap, clients := [] }
        (List.replicate 2 (Event.req (reqFrom "8.8.8.8") 0))).2
      ≤ RateLimitUserWebAPI.burst :=
  ⟨⟨by decide, rfl, rfl⟩,
   (single_entry_and_burst_bound_under_race okNext webAddr
      { heap := presetHeap, clients := [] } "8.8.8.8" 0 2 RateLimitUserWebAPI
      (by decide) rfl rfl).2.2⟩

set_option maxRecDepth 8000 in
/-- C1 (refuted on the code, contradicting the code's own per-client
documentation): through a Strict-preset middleware, ten requests from client
1.1.1.1 at time 0 are admitted and exhaust the bucket, after which the very
first request of the distinct client 2.2.2.2 at the same instant is rejected
with 429 — because both registry entries hold the same shared limiter
address rather than identity-owned buckets. -/
theorem sharedLimiter_cross_client_starvation :
    ((run okNext strictAddr { heap := presetHeap, clients := [] }
        (List.replicate 10 (Event.req (reqFrom "1.1.1.1") 0)
          ++ [Event.req (reqFrom "2.2.2.2") 0])).2.map
      (fun o => o.map (fun p => (p.1.status, p.2))))
      = List.replicate 10 (some (200, 1)) ++ [some (statusTooManyRequests, 0)] ∧
    lookupClient "1.1.1.1"
        (run okNext strictAddr { heap := presetHeap, clients := [] }
          (List.replicate 10 (Event.req (reqFrom "1.1.1.1") 0)
            ++ [Event.req (reqFrom "2.2.2.2") 0])).1.clients
      = some { limiterAddr := strictAddr, lastSeen := 0 } ∧
    lookupClient "2.2.2.2"
        (run okNext strictAddr { heap := presetHeap, clients := [] }
          (List.replicate 10 (Event.req (reqFrom "1.1.1.1") 0)
            ++ [Event.req (reqFrom "2.2.2.2") 0])).1.clients
      = some { limiterAddr := strictAddr, lastSeen := 0 } := by
  norm_num [run, stepEvent, handle, heapAllow, entryAddr, ensureEntry, lookupClient,
    setLastSeen, Limiter.allow, Limiter.advance, presetHeap, strictAddr,
    RateLimitStrictAPI, Limiter.new, reqFrom, okNext, rejectionResponse,
    rejectionMessage, statusTooManyRequests, List.replicate]

set_option maxRecDepth 8000 in
/-- C2 (refuted on the code): client 1.1.1.1 makes one request at time 0,
stays idle, and the sweep at time 360 does evict its entry; but when it
returns at time 400 — right after client 2.2.2.2 drained the shared bucket —
its first request as a "fresh" client is rejected outright instead of
enjoying a full burst allowance, because the newly created entry references
the same shared, drained limiter. -/
theorem evicted_client_returns_to_drained_bucket :
    (run okNext strictAddr { heap := presetHeap, clients := [] }
        [Event.req (reqFrom "1.1.1.1") 0, Event.sweep 360]).1.clients = [] ∧
    ((run okNext strictAddr { heap := presetHeap, clients := [] }
        ([Event.req (reqFrom "1.1.1.1") 0, Event.sweep 360]
          ++ List.replicate 10 (Event.req (reqFrom "2.2.2.2") 400)
          ++ [Event.req (reqFrom "1.1.1.1") 400])).2.getLast?)
      = some (some (rejectionResponse Unit 400, 0)) ∧
    lookupClient "1.1.1.1"
        (run okNext strictAddr { heap := presetHeap, clients := [] }
          ([Event.req (reqFrom "1.1.1.1") 0, Event.sweep 360]
            ++ List.replicate 10 (Event.req (reqFrom "2.2.2.2") 400)
            ++ [Event.req (reqFrom "1.1.1.1") 400])).1.clients
      = some { limiterAddr := strictAddr, lastSeen := 400 } := by
  norm_num [run, stepEvent, handle, heapAllow, entryAddr, ensureEntry, lookupClient,
    setLastSeen, Limiter.allow, Limiter.advance, evictIdle, fiveMinutes, presetHeap,
    strictAddr, RateLimitStrictAPI, Limiter.new, reqFrom, okNext, rejectionResponse,
    rejectionMessage, statusTooManyRequests, List.replicate]

set_option maxRecDepth 8000 in
set_option maxHeartbeats 2000000 in
/-- C3 (refuted on the code): under the Strict preset, after client 1.1.1.1
drains the shared bucket at time 0, client 2.2.2.2 — first seen at time 0 —
issues eleven requests at that instant and has all eleven rejected, instead
of the claimed ten admissions followed by one rejection. -/
theorem preset_burst_denied_to_new_client_after_cross_traffic :
    (((run okNext strictAddr { heap := presetHeap, clients := [] }
        (List.replicate 10 (Event.req (reqFrom "1.1.1.1") 0)
          ++ List.replicate 11 (Event.req (reqFrom "2.2.2.2") 0))).2.drop 10).map
      (fun o => o.map (fun p => (p.1.status, p.2))))
      = List.replicate 11 (some (statusTooManyRequests, 0)) := by
  norm_num [run, stepEvent, handle, heapAllow, entryAddr, ensureEntry, lookupClient,
    setLastSeen, Limiter.allow, Limiter.advance, presetHeap, strictAddr,
    RateLimitStrictAPI, Limiter.new, reqFrom, okNext, rejectionResponse,
    rejectionMessage, statusTooManyRequests, List.replicate]

end Anvil
